import Mathlib

/-!
Verification development for the Vendas_Diarias scripts: a shallow embedding
of the VTEX sellers exporter (lista_sellers.py) and the order-items collector
(pedidos_itens.py), with theorems about pagination, deduplication, row
normalization, detail fetching, CSV export and the time-window computation.
-/

namespace VendasDiarias

mutual
/-- JSON values as delivered by the VTEX APIs. Numbers are modelled as
integers (the identifier, price and paging fields the scripts inspect are
strings or integers). Arrays and objects are given by the mutual types
below so that equality is decidable. -/
inductive JValue where
  | null : JValue
  | boolean : Bool → JValue
  | num : Int → JValue
  | str : String → JValue
  | arr : JList → JValue
  | obj : JObj → JValue

inductive JList where
  | nil : JList
  | cons : JValue → JList → JList

inductive JObj where
  | nil : JObj
  | cons : String → JValue → JObj → JObj
end

deriving instance DecidableEq for JValue, JList, JObj
deriving instance Repr for JValue, JList, JObj

/-- The elements of a JSON array as a Lean list. -/
def JList.toList : JList → List JValue
  | .nil => []
  | .cons x xs => x :: xs.toList

/-- Build a JSON array from a Lean list. -/
def JList.ofList : List JValue → JList
  | [] => .nil
  | x :: xs => .cons x (JList.ofList xs)

/-- The bindings of a JSON object as a Lean association list, in insertion
order (Python dicts preserve insertion order). -/
def JObj.toList : JObj → List (String × JValue)
  | .nil => []
  | .cons k v rest => (k, v) :: rest.toList

/-- Build a JSON object from a Lean association list. -/
def JObj.ofList : List (String × JValue) → JObj
  | [] => .nil
  | (k, v) :: rest => .cons k v (JObj.ofList rest)

/-- First binding of a key in an object (Python dicts have unique keys, so
first and last coincide on dict-shaped data). -/
def JObj.lookup : JObj → String → Option JValue
  | .nil, _ => none
  | .cons k v rest, key => if k = key then some v else rest.lookup key

/-- Python `d.get(key, default)`. -/
def JObj.getD (o : JObj) (key : String) (dflt : JValue) : JValue :=
  match o.lookup key with
  | some v => v
  | none => dflt

/-- Python truthiness for the JSON values above: None, False, 0, the empty
string, the empty list and the empty dict are falsy. -/
def pyTruthy : JValue → Bool
  | .null => false
  | .boolean b => b
  | .num n => n != 0
  | .str s => !s.isEmpty
  | .arr .nil => false
  | .arr (.cons _ _) => true
  | .obj .nil => false
  | .obj (.cons _ _ _) => true

/-- Python `a or b`: the first operand when truthy, otherwise the second. -/
def pyOr (a b : JValue) : JValue :=
  if pyTruthy a then a else b

/-- First binding of a key in an association list (rows under construction). -/
def lookupKey : List (String × JValue) → String → Option JValue
  | [], _ => none
  | (k, v) :: rest, key => if k = key then some v else lookupKey rest key

/-- Python dict assignment `d[key] = v` on a row: replaces in place when the
key is present, appends otherwise. -/
def setKey : List (String × JValue) → String → JValue → List (String × JValue)
  | [], key, v => [(key, v)]
  | (k, w) :: rest, key, v =>
      if k = key then (k, v) :: rest else (k, w) :: setKey rest key v

/-- Days since 1970-01-01 of a civil date (proleptic Gregorian calendar),
the standard era-based conversion. -/
def daysFromCivil (y m d : Int) : Int :=
  let y2 := if m ≤ 2 then y - 1 else y
  let era := Int.fdiv y2 400
  let yoe := y2 - era * 400
  let mp := Int.fmod (m + 9) 12
  let doy := Int.fdiv (153 * mp + 2) 5 + d - 1
  let doe := yoe * 365 + Int.fdiv yoe 4 - Int.fdiv yoe 100 + doy
  era * 146097 + doe - 719468

/-- Civil date (year, month, day) of a count of days since 1970-01-01. -/
def civilFromDays (z0 : Int) : Int × Int × Int :=
  let z := z0 + 719468
  let era := Int.fdiv z 146097
  let doe := z - era * 146097
  let yoe := Int.fdiv (doe - Int.fdiv doe 1460 + Int.fdiv doe 36524 - Int.fdiv doe 146096) 365
  let y := yoe + era * 400
  let doy := doe - (365 * yoe + Int.fdiv yoe 4 - Int.fdiv yoe 100)
  let mp := Int.fdiv (5 * doy + 2) 153
  let d := doy - Int.fdiv (153 * mp + 2) 5 + 1
  let m := if mp < 10 then mp + 3 else mp - 9
  (if m ≤ 2 then y + 1 else y, m, d)

/-- A wall-clock datetime at second resolution (the scripts always zero the
microsecond field before using a datetime). -/
structure DateTime where
  year : Int
  month : Int
  day : Int
  hour : Int
  minute : Int
  second : Int
deriving DecidableEq, Repr

/-- Seconds since the epoch of a wall-clock datetime (no offset applied). -/
def DateTime.toSeconds (t : DateTime) : Int :=
  daysFromCivil t.year t.month t.day * 86400 + t.hour * 3600 + t.minute * 60 + t.second

/-- The wall-clock datetime of a count of seconds since the epoch. -/
def DateTime.ofSeconds (s : Int) : DateTime :=
  let days := Int.fdiv s 86400
  let sod := s - days * 86400
  let c := civilFromDays days
  ⟨c.1, c.2.1, c.2.2, Int.fdiv sod 3600, Int.fdiv (Int.fmod sod 3600) 60, Int.fmod sod 60⟩

/-- `t - timedelta(days=n)` on an offset-aware datetime with a fixed offset:
the wall clock moves back by exactly n calendar days. -/
def DateTime.subDays (t : DateTime) (n : Int) : DateTime :=
  .ofSeconds (t.toSeconds - n * 86400)

/-- `gerar_intervalo` from pedidos_itens.py, parametrized by the current
Brazil-local (UTC-3) wall-clock time `agora` (the script obtains it from
`agora_brasil()`): start is 4 days ago at local midnight, end is today at
local 23:59:59. -/
def gerar_intervalo (agora : DateTime) : DateTime × DateTime :=
  let inicio := { agora.subDays 4 with hour := 0, minute := 0, second := 0 }
  let fim := { agora with hour := 23, minute := 59, second := 59 }
  (inicio, fim)

/-- Zero-pad a nonnegative integer to a given width, as `strftime` does. -/
def padZeros (w : Nat) (n : Int) : String :=
  let s := toString n
  if n ≥ 0 ∧ s.length < w then String.mk (List.replicate (w - s.length) '0') ++ s
  else s

/-- `strftime("%Y-%m-%d %H:%M:%S")`. -/
def strftimeYmdHms (t : DateTime) : String :=
  padZeros 4 t.year ++ "-" ++ padZeros 2 t.month ++ "-" ++ padZeros 2 t.day ++ " " ++
    padZeros 2 t.hour ++ ":" ++ padZeros 2 t.minute ++ ":" ++ padZeros 2 t.second

/-- Numeric value of a decimal digit character. -/
def digitVal : Char → Option Nat
  | c => if c.isDigit then some (c.toNat - 48) else none

/-- Parse exactly `n` decimal digits, accumulating into `acc`. -/
def parseNDigits : Nat → Nat → List Char → Option (Nat × List Char)
  | 0, acc, cs => some (acc, cs)
  | Nat.succ m, acc, cs =>
      match cs with
      | [] => none
      | c :: rest =>
          match digitVal c with
          | some d => parseNDigits m (acc * 10 + d) rest
          | none => none

/-- Expect one specific character. -/
def expectChar (c : Char) : List Char → Option (List Char)
  | [] => none
  | c2 :: rest => if c2 = c then some rest else none

/-- Drop a fractional-seconds part `.dddd` if present (at least one digit
required after the dot, as `fromisoformat` demands). -/
def skipFraction : List Char → Option (List Char)
  | '.' :: rest =>
      match rest with
      | c :: _ =>
          if c.isDigit then some (rest.dropWhile Char.isDigit) else none
      | [] => none
  | cs => some cs

/-- Parse a trailing UTC offset `+HH:MM` or `-HH:MM` (the input must end
there), returning the offset in minutes. -/
def parseOffset (cs : List Char) : Option Int :=
  match cs with
  | sign :: rest =>
      if sign = '+' ∨ sign = '-' then
        match parseNDigits 2 0 rest with
        | some (oh, rest2) =>
            match expectChar ':' rest2 with
            | some rest3 =>
                match parseNDigits 2 0 rest3 with
                | some (om, []) =>
                    let mins : Int := oh * 60 + om
                    some (if sign = '-' then -mins else mins)
                | _ => none
            | none => none
        | none => none
      else none
  | [] => none

/-- `datetime.fromisoformat` restricted to offset-aware inputs of the form
`YYYY-MM-DD[T ]HH:MM:SS[.ffffff]+HH:MM`; returns the wall-clock time (at
second resolution) and the offset in minutes. A naive input (no offset)
would make the script's `astimezone` depend on the host timezone, which is
outside this model, and a malformed input raises in the script (modelled as
`none`). -/
def fromisoformatAware (s : String) : Option (DateTime × Int) :=
  match parseNDigits 4 0 s.data with
  | some (y, r1) =>
    match expectChar '-' r1 with
    | some r2 =>
      match parseNDigits 2 0 r2 with
      | some (mo, r3) =>
        match expectChar '-' r3 with
        | some r4 =>
          match parseNDigits 2 0 r4 with
          | some (d, r5) =>
            match r5 with
            | sep :: r6 =>
              if sep = 'T' ∨ sep = ' ' then
                match parseNDigits 2 0 r6 with
                | some (h, r7) =>
                  match expectChar ':' r7 with
                  | some r8 =>
                    match parseNDigits 2 0 r8 with
                    | some (mi, r9) =>
                      match expectChar ':' r9 with
                      | some r10 =>
                        match parseNDigits 2 0 r10 with
                        | some (sec, r11) =>
                          match skipFraction r11 with
                          | some r12 =>
                            match parseOffset r12 with
                            | some off => some (⟨y, mo, d, h, mi, sec⟩, off)
                            | none => none
                          | none => none
                        | none => none
                      | none => none
                    | none => none
                  | none => none
                | none => none
              else none
            | [] => none
          | none => none
        | none => none
      | none => none
    | none => none
  | none => none

/-- `converter_brasil` from pedidos_itens.py: a falsy input yields `None`;
a string is parsed (after replacing `Z` with `+00:00`), converted to the
fixed UTC-3 offset and formatted; anything else raises (`none`: a non-string
has no `.replace`, a malformed string fails `fromisoformat`). -/
def converter_brasil (data_iso : JValue) : Option JValue :=
  if !(pyTruthy data_iso) then some .null
  else
    match data_iso with
    | .str s =>
        match fromisoformatAware (s.replace "Z" "+00:00") with
        | some (dt, offMin) =>
            some (.str (strftimeYmdHms (DateTime.ofSeconds (dt.toSeconds - offMin * 60 - 3 * 3600))))
        | none => none
    | _ => none

/-- Lower-case hex digit. -/
def hexDigit (n : Nat) : String :=
  if n < 10 then toString n else String.singleton (Char.ofNat (97 + n - 10))

/-- Escaping of one character inside a JSON string as `json.dumps` does
(with `ensure_ascii=False`, so non-ASCII characters pass through). -/
def jsonEscapeChar (c : Char) : String :=
  if c = '"' then "\\\""
  else if c = '\\' then "\\\\"
  else if c = '\n' then "\\n"
  else if c = '\t' then "\\t"
  else if c = '\r' then "\\r"
  else if c = '\x08' then "\\b"
  else if c = '\x0c' then "\\f"
  else if c.toNat < 32 then "\\u00" ++ hexDigit (c.toNat / 16) ++ hexDigit (c.toNat % 16)
  else String.singleton c

/-- A JSON string literal as `json.dumps` renders it. -/
def jsonQuote (s : String) : String :=
  "\"" ++ String.join (s.data.map jsonEscapeChar) ++ "\""

mutual
/-- `json.dumps(value, ensure_ascii=False)` with the default separators
(", " between items, ": " after keys). -/
def jsonDumps : JValue → String
  | .null => "null"
  | .boolean true => "true"
  | .boolean false => "false"
  | .num n => toString n
  | .str s => jsonQuote s
  | .arr .nil => "[]"
  | .arr (.cons x xs) => "[" ++ jsonDumps x ++ jsonDumpsRest xs ++ "]"
  | .obj .nil => "\x7b\x7d"
  | .obj (.cons k v rest) =>
      "\x7b" ++ jsonQuote k ++ ": " ++ jsonDumps v ++ jsonDumpsObjRest rest ++ "\x7d"

/-- Remaining array elements, each preceded by the item separator. -/
def jsonDumpsRest : JList → String
  | .nil => ""
  | .cons x xs => ", " ++ jsonDumps x ++ jsonDumpsRest xs

/-- Remaining object entries, each preceded by the item separator. -/
def jsonDumpsObjRest : JObj → String
  | .nil => ""
  | .cons k v rest => ", " ++ jsonQuote k ++ ": " ++ jsonDumps v ++ jsonDumpsObjRest rest
end

/-- Whether a value is a nested structure (Python `isinstance(value, (list, dict))`). -/
def isNested : JValue → Bool
  | .arr _ => true
  | .obj _ => true
  | _ => false

/-- The per-value transformation of export_to_csv's row loop: nested
structures become their JSON text, everything else passes through. -/
def normalizeValue (v : JValue) : JValue :=
  if isNested v then .str (jsonDumps v) else v

/-- The PascalCase-to-camelCase rename table `field_mapping` of
lista_sellers.py. -/
def field_mapping : List (String × String) :=
  [("SellerId", "id"), ("Name", "name"), ("Email", "email"),
   ("Description", "description"), ("ExchangeReturnPolicy", "exchangeReturnPolicy"),
   ("DeliveryPolicy", "deliveryPolicy"), ("UseHybridPaymentOptions", "useHybridPaymentOptions"),
   ("UserName", "userName"), ("Password", "password"), ("TaxCode", "taxCode"),
   ("IsActive", "isActive"), ("FulfillmentEndpoint", "fulfillmentEndpoint"),
   ("CatalogSystemEndpoint", "catalogSystemEndpoint")]

/-- `field_mapping.get(key, key)`. -/
def mapField (key : String) : String :=
  match field_mapping.lookup key with
  | some t => t
  | none => key

/-- One iteration of the row loop: `row[field_mapping.get(key, key)] = value`
with nested values serialized. -/
def rowStep (row : List (String × JValue)) (kv : String × JValue) : List (String × JValue) :=
  setKey row (mapField kv.1) (normalizeValue kv.2)

/-- The Canonical Row built from one seller entity by export_to_csv
(lines 199-213): keys renamed through `field_mapping`, nested values
serialized to JSON text, and an `id` back-fill from `SellerId` when `id`
is still absent (the back-fill branch is kept although `SellerId` itself
is always renamed to `id`). -/
def normalizeRow (seller : JObj) : List (String × JValue) :=
  let row := seller.toList.foldl rowStep []
  if (lookupKey row "id").isNone ∧ (seller.lookup "SellerId").isSome then
    setKey row "id" (seller.getD "SellerId" .null)
  else row

/-- Outcome of one loop iteration of a paginated pull: the loop proceeds to
another request (`next`), breaks with a final result (`halt`), or an
uncaught exception aborts the run (`crash`). -/
inductive StepOut (σ ρ : Type) where
  | next : σ → StepOut σ ρ
  | halt : ρ → StepOut σ ρ
  | crash : StepOut σ ρ
deriving DecidableEq, Repr

/-- One answer of the sellers list endpoint as get_all_sellers sees it:
either a raised `RequestException` (transport failure, a non-2xx status via
`raise_for_status`, or an unparsable body) or the decoded JSON payload. -/
inductive Resp where
  | err : Resp
  | ok : JValue → Resp
deriving DecidableEq, Repr

/-- The loop state of get_all_sellers: accumulated entities, the set of
seen identifiers (modelled as a list), and the `total_sellers` cell
(`none` = Python `None`, never written again once set). -/
structure SellersState where
  all_sellers : List JValue
  seen_ids : List JValue
  total_sellers : Option JValue
deriving DecidableEq, Repr

/-- The resolved identifier of an entity:
`seller.get('SellerId') or seller.get('id') or seller.get('sellerId')`.
Non-dict entities have no identifier (the code never resolves one for them). -/
def resolveId (seller : JValue) : JValue :=
  match seller with
  | .obj o => pyOr (o.getD "SellerId" .null) (pyOr (o.getD "id" .null) (o.getD "sellerId" .null))
  | _ => .null

/-- One iteration of the per-page seller loop (lines 67-75): dict entities
with a truthy, unseen identifier are appended and registered; everything
else is dropped. -/
def acceptSeller (st : List JValue × List JValue × Nat) (seller : JValue) :
    List JValue × List JValue × Nat :=
  match seller with
  | .obj o =>
      if pyTruthy (resolveId (.obj o)) ∧ resolveId (.obj o) ∉ st.2.1 then
        (st.1 ++ [.obj o], st.2.1 ++ [resolveId (.obj o)], st.2.2 + 1)
      else st
  | _ => st

/-- `total_sellers` update on a page (lines 61-62): only the first
dict-shaped page sets it, from `paging.get('total', 0)`; a non-dict
`paging` value raises (`none`). -/
def updateTotal (cur : Option JValue) (paging : JValue) : Option (Option JValue) :=
  match cur with
  | some t => some (some t)
  | none =>
      match paging with
      | .obj p => some (some (p.getD "total" (.num 0)))
      | _ => none

/-- The `if sellers:` block: a falsy `items` value skips the loop, a truthy
list is folded through `acceptSeller`, and a truthy non-list raises when
iterated (`none`). -/
def iterSellers (sellers : JValue) (all seen : List JValue) :
    Option (List JValue × List JValue × Nat) :=
  if pyTruthy sellers then
    match sellers with
    | .arr l => some (l.toList.foldl acceptSeller (all, seen, 0))
    | _ => none
  else some (all, seen, 0)

/-- The break test (line 81):
`(total_sellers and len(all_sellers) >= total_sellers) or new_sellers_count == 0`.
A truthy non-numeric total raises on the comparison (`none`); a falsy total
short-circuits the left conjunct. -/
def stopCheck (t : JValue) (count : Nat) (newCnt : Nat) : Option Bool :=
  if pyTruthy t then
    match t with
    | .num n => some (decide ((count : Int) ≥ n) || decide (newCnt = 0))
    | _ => none
  else some (decide (newCnt = 0))

/-- One iteration of get_all_sellers' `while True` loop against one
response. A raised request exception breaks with the accumulated list; a
dict payload is paginated and deduplicated; any other payload replaces the
accumulator verbatim (a list by its elements, anything else by `[]`) and
breaks. -/
def stepSellers (s : SellersState) (r : Resp) : StepOut SellersState (List JValue) :=
  match r with
  | .err => .halt s.all_sellers
  | .ok data =>
      match data with
      | .obj fields =>
          match updateTotal s.total_sellers (fields.getD "paging" (.obj .nil)) with
          | none => .crash
          | some total2 =>
              match iterSellers (fields.getD "items" (.arr .nil)) s.all_sellers s.seen_ids with
              | none => .crash
              | some (all2, seen2, newCnt) =>
                  match stopCheck (total2.getD (.num 0)) all2.length newCnt with
                  | none => .crash
                  | some true => .halt all2
                  | some false => .next ⟨all2, seen2, total2⟩
      | .arr l => .halt l.toList
      | _ => .halt []

/-- Run get_all_sellers' loop against a finite sequence of responses; when
the sequence is exhausted before a break, the accumulated list observed so
far is returned (a longer real run extends such a prefix). -/
def runSellers : SellersState → List Resp → Option (List JValue)
  | s, [] => some s.all_sellers
  | s, r :: rs =>
      match stepSellers s r with
      | .crash => none
      | .halt res => some res
      | .next s2 => runSellers s2 rs

/-- `get_all_sellers`, starting from the empty accumulator with no total. -/
def get_all_sellers (resps : List Resp) : Option (List JValue) :=
  runSellers ⟨[], [], none⟩ resps

/-- The fixed leading column list of export_to_csv (lines 135-157). -/
def fieldnames_base : List String :=
  ["id", "name", "email", "description", "exchangeReturnPolicy", "deliveryPolicy",
   "useHybridPaymentOptions", "userName", "password", "SonarConfiguration", "taxCode",
   "isActive", "fulfillmentEndpoint", "catalogSystemEndpoint", "allowHybridPayments",
   "sellerType", "availableSalesChannels", "trustPolicy", "channel", "sellerId",
   "CSCIdentification"]

/-- Keep the first occurrence of each string. -/
def dedupFirstAux : List String → List String → List String
  | _, [] => []
  | seen, k :: rest =>
      if k ∈ seen then dedupFirstAux seen rest
      else k :: dedupFirstAux (k :: seen) rest

/-- Keep the first occurrence of each string. -/
def dedupFirst (l : List String) : List String := dedupFirstAux [] l

/-- The union of the dict entities' keys (`all_keys`), in discovery order.
CPython iterates the set in a hash-determined order; the claims do not
depend on the order of the extra columns, and discovery order is used as
its determinization. -/
def collectKeys (sellers : List JValue) : List String :=
  dedupFirst (sellers.foldl
    (fun acc e => match e with | .obj o => acc ++ o.toList.map Prod.fst | _ => acc) [])

/-- The CSV header: the fixed columns followed by every other key seen in
the input (lines 159-169). -/
def computeFieldnames (sellers : List JValue) : List String :=
  fieldnames_base ++ (collectKeys sellers).filter (fun k => k ∉ fieldnames_base)

mutual
/-- Python `repr` of a value, as `str()` falls back to for containers.
These cases are unreachable from export_to_csv (normalizeRow has already
replaced every container by its JSON text) but keep the cell renderer
total and faithful for simple values. -/
def pyRepr : JValue → String
  | .null => "None"
  | .boolean true => "True"
  | .boolean false => "False"
  | .num n => toString n
  | .str s => "\x27" ++ s ++ "\x27"
  | .arr .nil => "[]"
  | .arr (.cons x xs) => "[" ++ pyRepr x ++ pyReprRest xs ++ "]"
  | .obj .nil => "\x7b\x7d"
  | .obj (.cons k v rest) =>
      "\x7b" ++ "\x27" ++ k ++ "\x27: " ++ pyRepr v ++ pyReprObjRest rest ++ "\x7d"

/-- Remaining array elements of a `repr`. -/
def pyReprRest : JList → String
  | .nil => ""
  | .cons x xs => ", " ++ pyRepr x ++ pyReprRest xs

/-- Remaining object entries of a `repr`. -/
def pyReprObjRest : JObj → String
  | .nil => ""
  | .cons k v rest => ", " ++ "\x27" ++ k ++ "\x27: " ++ pyRepr v ++ pyReprObjRest rest
end

/-- How Python's csv writer renders one cell value: strings pass through,
`None` becomes the empty string, booleans and numbers via `str()`. -/
def pyStrCell : JValue → String
  | .null => ""
  | .boolean true => "True"
  | .boolean false => "False"
  | .num n => toString n
  | .str s => s
  | .arr l => pyRepr (.arr l)
  | .obj o => pyRepr (.obj o)

/-- QUOTE_MINIMAL: a cell is quoted when it contains the delimiter, the
quote character or a line break. -/
def csvNeedsQuote (s : String) : Bool :=
  s.data.any (fun c => c = ',' ∨ c = '"' ∨ c = '\r' ∨ c = '\n')

/-- Quote a cell if needed, doubling embedded quote characters. -/
def csvQuote (s : String) : String :=
  if csvNeedsQuote s then
    "\"" ++ String.join (s.data.map (fun c => if c = '"' then "\"\"" else String.singleton c)) ++ "\""
  else s

/-- One CSV line (without its terminator). -/
def csvLine (cells : List String) : String :=
  String.intercalate "," (cells.map csvQuote)

/-- One data row as `csv.DictWriter` writes it with `extrasaction='ignore'`
and the default `restval=''`: exactly the header's columns, in header
order, missing keys as empty cells. -/
def renderRow (fieldnames : List String) (row : List (String × JValue)) : String :=
  csvLine (fieldnames.map (fun f =>
    match lookupKey row f with
    | some v => pyStrCell v
    | none => ""))

/-- `export_to_csv` (lines 116-222) as the list of lines of the file it
writes, or `none` when no file is written at all: an empty input returns
early (lines 124-126) before the file is even opened. Non-dict entities
are skipped. -/
def export_to_csv (sellers : List JValue) : Option (List String) :=
  if sellers.isEmpty then none
  else
    let fns := computeFieldnames sellers
    some (csvLine fns ::
      sellers.filterMap (fun e =>
        match e with
        | .obj o => some (renderRow fns (normalizeRow o))
        | _ => none))

/-- One HTTP exchange as the scripts see it before any status handling:
either the request raised, or it completed with a status code and a decoded
JSON body. -/
inductive HResp where
  | exn : HResp
  | http : Nat → JValue → HResp
deriving DecidableEq, Repr

/-- `get_seller_details` (lines 95-114): a single request; any
`RequestException` (including a 4xx/5xx status via `raise_for_status`)
yields the empty dict. -/
def get_seller_details (attempt : HResp) : JValue :=
  match attempt with
  | .exn => .obj .nil
  | .http s b => if 400 ≤ s ∧ s < 600 then .obj .nil else b

/-- `get_seller_details` against a supply of would-be responses, recording
how many requests it consumes: the function body is a single
try/except with no loop, so exactly one response is ever used. -/
def get_seller_details_run (resps : List HResp) : Option (JValue × Nat) :=
  match resps with
  | [] => none
  | r :: _ => some (get_seller_details r, 1)

/-- One iteration of export_sellers' detail loop (lines 243-253): resolve
`seller.get('id') or seller.get('sellerId')`; with a truthy identifier,
a truthy details record replaces the entity, otherwise the original
summary entity is kept. `details` maps an identifier to the value
get_seller_details returned for it. A non-dict entity raises (`none`). -/
def detailOne (details : JValue → JValue) (seller : JValue) : Option JValue :=
  match seller with
  | .obj o =>
      let sid := pyOr (o.getD "id" .null) (o.getD "sellerId" .null)
      if pyTruthy sid then
        let d := details sid
        some (if pyTruthy d then d else seller)
      else some seller
  | _ => none

/-- The detail phase of export_sellers (lines 240-254). -/
def detailPhase (details : JValue → JValue) (sellers : List JValue) : Option (List JValue) :=
  sellers.mapM (detailOne details)

/-- A collected order-item record: a Python dict in insertion order. -/
abbrev Registro := List (String × JValue)

/-- The final column list of pedidos_itens.py's main (lines 125-136). -/
def colunas_finais : List String :=
  ["creationDate", "orderId", "additionalInfo_categories", "name", "price",
   "listPrice", "quantity", "productId", "seller", "data_extracao"]

/-- The order-detail retry loop (lines 84-91): up to `fuel` attempts,
stopping at the first status-200 response; a raised exception or any other
status just moves on to the next attempt. `none` means `pedido` stayed
`None`. -/
def tentarAttempts (att : Nat → HResp) : Nat → Nat → Option JValue
  | _, 0 => none
  | i, Nat.succ fuel =>
      match att i with
      | .http 200 b => some b
      | _ => tentarAttempts att (i + 1) fuel

/-- The three attempts made for one order id. -/
def fetch_detail (att : Nat → HResp) : Option JValue :=
  tentarAttempts att 0 3

/-- `item.get("additionalInfo", {}).get("categories")`; a non-dict
`additionalInfo` raises (`none`). -/
def addlCategories (item : JObj) : Option JValue :=
  match item.getD "additionalInfo" (.obj .nil) with
  | .obj a => some (a.getD "categories" .null)
  | _ => none

/-- The record literal appended for one item (lines 99-110), with the
categories value already resolved. `agora` is the wall-clock time
`agora_brasil()` returns for the `data_extracao` stamp. -/
def registroOf (agora : DateTime) (order_id creation cats : JValue) (item : JObj) : Registro :=
  [("creationDate", creation),
   ("orderId", order_id),
   ("additionalInfo_categories", cats),
   ("name", item.getD "name" .null),
   ("price", item.getD "price" .null),
   ("listPrice", item.getD "listPrice" .null),
   ("quantity", item.getD "quantity" .null),
   ("productId", item.getD "productId" .null),
   ("seller", item.getD "seller" .null),
   ("data_extracao", .str (strftimeYmdHms agora))]

/-- The `for item in pedido.get("items", [])` body over the items already
extracted as a list; a non-dict item raises (`none`). -/
def itemsLoop (agora : DateTime) (order_id creation : JValue) : List JValue → Option (List Registro)
  | [] => some []
  | x :: xs =>
      match x with
      | .obj io =>
          match addlCategories io with
          | none => none
          | some cats =>
              match itemsLoop agora order_id creation xs with
              | none => none
              | some rest => some (registroOf agora order_id creation cats io :: rest)
      | _ => none

/-- `pedido.get("items", [])` iterated: a list is looped over; an empty
dict or empty string iterates zero times; any other value raises when
iterated or when the first element lacks `.get` (`none`). -/
def processItems (agora : DateTime) (order_id creation : JValue) (items : JValue) :
    Option (List Registro) :=
  match items with
  | .arr l => itemsLoop agora order_id creation l.toList
  | .obj .nil => some []
  | .str s => if s.isEmpty then some [] else none
  | _ => none

/-- The per-summary body of coletar_itens (lines 76-110): a falsy
`orderId` skips the order; a detail fetch that never succeeds (or returns
a falsy record) skips the order; otherwise every item of the detail record
contributes one record. `att order_id i` is the response to attempt `i` of
the detail fetch for that order. -/
def processResumo (att : JValue → Nat → HResp) (agora : DateTime) (resumo : JValue) :
    Option (List Registro) :=
  match resumo with
  | .obj o =>
      let order_id := o.getD "orderId" .null
      if !(pyTruthy order_id) then some []
      else
        match fetch_detail (att order_id) with
        | none => some []
        | some pedido =>
            if !(pyTruthy pedido) then some []
            else
              match pedido with
              | .obj po =>
                  match converter_brasil (po.getD "creationDate" .null) with
                  | none => none
                  | some creation =>
                      processItems agora order_id creation (po.getD "items" (.arr .nil))
              | _ => none
  | _ => none

/-- All summaries of one page, concatenating their records in order. -/
def resumosLoop (att : JValue → Nat → HResp) (agora : DateTime) :
    List JValue → Option (List Registro)
  | [] => some []
  | r :: rs =>
      match processResumo att agora r with
      | none => none
      | some here =>
          match resumosLoop att agora rs with
          | none => none
          | some rest => some (here ++ rest)

/-- One iteration of coletar_itens' `while True` loop against one page
response. A raised exception at page level is not caught (`crash`); a
non-200 status breaks; a falsy `list` field breaks; a truthy non-list
`list` raises (its elements would lack `.get`); otherwise all records of
the page are appended and the loop proceeds. -/
def stepItens (att : JValue → Nat → HResp) (agora : DateTime) (regs : List Registro)
    (r : HResp) : StepOut (List Registro) (List Registro) :=
  match r with
  | .exn => .crash
  | .http status body =>
      if status ≠ 200 then .halt regs
      else
        match body with
        | .obj o =>
            let pedidos := o.getD "list" (.arr .nil)
            if !(pyTruthy pedidos) then .halt regs
            else
              match pedidos with
              | .arr l =>
                  match resumosLoop att agora l.toList with
                  | some newRegs => .next (regs ++ newRegs)
                  | none => .crash
              | _ => .crash
        | _ => .crash

/-- Run coletar_itens' loop against a finite sequence of page responses;
when the sequence is exhausted before a break, the records accumulated so
far are returned (a longer real run extends such a prefix). -/
def runItens (att : JValue → Nat → HResp) (agora : DateTime) :
    List Registro → List HResp → Option (List Registro)
  | regs, [] => some regs
  | regs, r :: rs =>
      match stepItens att agora regs r with
      | .crash => none
      | .halt res => some res
      | .next regs2 => runItens att agora regs2 rs

/-- `coletar_itens`, starting from the empty record list. -/
def coletar_itens (pages : List HResp) (att : JValue → Nat → HResp) (agora : DateTime) :
    Option (List Registro) :=
  runItens att agora [] pages

/-- The CSV written by pedidos_itens.py's main (lines 118-142) as its list
of lines: an empty collection still yields a header-only file
(`pd.DataFrame(columns=colunas_finais)`); otherwise every record is
projected onto `colunas_finais` (`df[colunas_finais]` raises on a missing
column, `none`). -/
def pedidos_main_csv (dados : List Registro) : Option (List String) :=
  if dados.isEmpty then some [csvLine colunas_finais]
  else
    match dados.mapM (fun rec => colunas_finais.mapM (lookupKey rec)) with
    | some rows => some (csvLine colunas_finais :: rows.map (fun r => csvLine (r.map pyStrCell)))
    | none => none

/-- Whether a value is a JSON array. -/
def isArr : JValue → Bool
  | .arr _ => true
  | _ => false

/-- Whether a loop iteration proceeds to another page request. -/
def StepOut.isNext {σ ρ : Type} : StepOut σ ρ → Bool
  | .next _ => true
  | _ => false

/-- The elements a value yields when iterated as a list (non-lists yield
nothing here; the truthy non-list case raises and is handled separately). -/
def itemsListOf (v : JValue) : List JValue :=
  match v with
  | .arr l => l.toList
  | _ => []

/-- The items a page "returns", as the spec speaks of them: the `items`
field of a paginated payload, or the elements of a plain-list payload. -/
def pageItemsOf (r : Resp) : List JValue :=
  match r with
  | .ok (.obj f) =>
      match f.getD "items" (.arr .nil) with
      | .arr l => l.toList
      | _ => []
  | .ok (.arr l) => l.toList
  | _ => []

/-- How many new (non-duplicate, identified) entities the page would
contribute on top of the current state. -/
def newCountOf (s : SellersState) (r : Resp) : Nat :=
  ((pageItemsOf r).foldl acceptSeller (s.all_sellers, s.seen_ids, 0)).2.2

/-- The accumulated count after absorbing the page. -/
def accAfterOf (s : SellersState) (r : Resp) : Nat :=
  ((pageItemsOf r).foldl acceptSeller (s.all_sellers, s.seen_ids, 0)).1.length

/-- The running total declared by the API as known after this page: the
stored one if already set, else the new page's `paging.total`. -/
def declaredTotalOf (s : SellersState) (r : Resp) : Option JValue :=
  match s.total_sellers with
  | some t => some t
  | none =>
      match r with
      | .ok (.obj f) =>
          match f.getD "paging" (.obj .nil) with
          | .obj p => some (p.getD "total" (.num 0))
          | _ => none
      | _ => none

/-- The stopping conditions exactly as the specification enumerates them
for the paginated fetcher: a transport-level failure, a page returning
zero items, a page yielding zero new (non-duplicate) items, or the
accumulated count reaching the declared running total. -/
def claimedStopSellers (s : SellersState) (r : Resp) : Bool :=
  decide (r = .err)
  || decide (pageItemsOf r = [])
  || decide (newCountOf s r = 0)
  || (match declaredTotalOf s r with
      | some (.num n) => decide ((accAfterOf s r : Int) ≥ n)
      | _ => false)

/-- Whether a value is a JSON number. -/
def isNum : JValue → Bool
  | .num _ => true
  | _ => false

/-- A first page whose `paging` value is not an object: reading the
declared total raises. -/
def firstPageMalformed (s : SellersState) (f : JObj) : Bool :=
  match s.total_sellers, JObj.getD f "paging" (.obj .nil) with
  | none, .obj _ => false
  | none, _ => true
  | some _, _ => false

/-- A truthy non-list `items` value: iterating it raises. -/
def itemsMalformed (f : JObj) : Bool :=
  pyTruthy (JObj.getD f "items" (.arr .nil)) && !isArr (JObj.getD f "items" (.arr .nil))

/-- The total comparison `len(all_sellers) >= total_sellers` as the break
test sees it: a genuine comparison for a number, a raised `TypeError`
otherwise (so a truthy non-number also ends the loop). -/
def totalCompare (t : JValue) (cnt : Nat) : Bool :=
  match t with
  | .num n => decide ((cnt : Int) ≥ n)
  | _ => true

/-- A truthy declared total that has been collected (or whose comparison
raises). -/
def totalStop (s : SellersState) (r : Resp) : Bool :=
  match declaredTotalOf s r with
  | some t => pyTruthy t && totalCompare t (accAfterOf s r)
  | none => false

/-- The stopping conditions get_all_sellers actually exhibits: a transport
failure; a response that is not a paginated object (a plain list or scalar
payload is taken as the final result); a malformed page that raises (a
non-dict `paging` on the first page, a truthy non-list `items`, or a
truthy non-numeric total on the comparison); a page yielding zero new
items; or a truthy (nonzero) declared total already collected. -/
def amendedStopSellers (s : SellersState) (r : Resp) : Bool :=
  match r with
  | .err => true
  | .ok (.obj f) =>
      firstPageMalformed s f || itemsMalformed f ||
        decide (newCountOf s (.ok (.obj f)) = 0) || totalStop s (.ok (.obj f))
  | .ok _ => true

/-- The stopping conditions coletar_itens actually exhibits: a raised page
request (uncaught, aborting the run), a non-200 status, a falsy `list`
field (the empty page), or a malformed page or order record that raises. -/
def amendedStopItens (att : JValue → Nat → HResp) (agora : DateTime) (r : HResp) : Bool :=
  match r with
  | .exn => true
  | .http status body =>
      decide (status ≠ 200)
      || (match body with
          | .obj o =>
              !(pyTruthy (o.getD "list" (.arr .nil)))
              || (match o.getD "list" (.arr .nil) with
                  | .arr l => decide (resumosLoop att agora l.toList = none)
                  | _ => true)
          | _ => true)

/-- The last field of an association list whose mapped (canonical) key is
`t`, if any: under Python dict-assignment semantics this is the field whose
value ends up at key `t` of the row. -/
def lastTarget (fields : List (String × JValue)) (t : String) : Option JValue :=
  match fields with
  | [] => none
  | (k, v) :: rest =>
      match lastTarget rest t with
      | some w => some w
      | none => if mapField k = t then some v else none

/-- Whether a sellers-endpoint response is an object payload or a raised
exception — the shapes under which the accumulating loop is exercised (a
plain-list payload instead replaces the accumulator wholesale). -/
def objOrErr : Resp → Bool
  | .err => true
  | .ok (.obj _) => true
  | _ => false

/-- The deduplication invariant of get_all_sellers' loop state: accumulated
entities have pairwise distinct resolved identifiers, and every accumulated
entity has a truthy identifier already registered in `seen`. -/
def SellersInv (all seen : List JValue) : Prop :=
  all.Pairwise (fun a b => resolveId a ≠ resolveId b) ∧
  ∀ e ∈ all, pyTruthy (resolveId e) = true ∧ resolveId e ∈ seen

/-- What the claims assert of a finished result list: no two entities share
a resolved identifier, and every entity has a truthy one. -/
def ResultOk (res : List JValue) : Prop :=
  res.Pairwise (fun a b => resolveId a ≠ resolveId b) ∧
  ∀ e ∈ res, pyTruthy (resolveId e) = true

/- Sample data used by concrete runs in the theorems below. -/

/-- A seller entity with identifier "a". -/
def eDup : JValue := .obj (.cons "id" (.str "a") .nil)

/-- A seller entity with no identifier field at all. -/
def eNoId : JValue := .obj (.cons "name" (.str "x") .nil)

/-- A seller entity identified through the PascalCase field. -/
def eB : JValue := .obj (.cons "SellerId" (.str "b") .nil)

/-- A paginated page: items [eDup, eDup, eNoId, eB], declared total 2. -/
def page1 : Resp :=
  .ok (.obj (.cons "items"
    (.arr (.cons eDup (.cons eDup (.cons eNoId (.cons eB .nil)))))
    (.cons "paging" (.obj (.cons "total" (.num 2) .nil)) .nil)))

/-- An order summary with orderId "X". -/
def resumoX : JValue := .obj (.cons "orderId" (.str "X") .nil)

/-- A 200 page whose list holds the single summary `resumoX`. -/
def pageA : HResp := .http 200 (.obj (.cons "list" (.arr (.cons resumoX .nil)) .nil))

/-- A 200 page with an empty list (the terminating page). -/
def pageB : HResp := .http 200 (.obj (.cons "list" (.arr .nil) .nil))

/-- A detail endpoint that always answers 500. -/
def attFail : JValue → Nat → HResp := fun _ _ => .http 500 .null

/-- A detail endpoint that always answers 200 with one bare item. -/
def attOk : JValue → Nat → HResp :=
  fun _ _ => .http 200 (.obj (.cons "items" (.arr (.cons (.obj .nil) .nil)) .nil))

/-- A fixed "now" for concrete runs. -/
def agora0 : DateTime := ⟨2024, 6, 10, 15, 0, 0⟩

/-- A seller whose `id` field is present but empty. -/
def sEmptyId : JObj := .cons "id" (.str "") .nil

/-- A seller identified only through `SellerId`. -/
def sS1 : JObj := .cons "SellerId" (.str "S1") .nil

/-- A seller with a nested `SellerId` value followed by a scalar `id`:
both fields map to the canonical key `id`. -/
def sCollide : JObj := .cons "SellerId" (.arr (.cons (.num 1) .nil)) (.cons "id" (.str "x") .nil)

/-- A seller with a nested value and no canonical-key collision. -/
def sNested : JObj :=
  .cons "SellerId" (.arr (.cons (.num 1) .nil)) (.cons "Name" (.str "A") .nil)

/-- The record collected for the bare item of `attOk`'s detail answer when
run at `agora0` on order "X". -/
def regSample : Registro :=
  [("creationDate", .null), ("orderId", .str "X"), ("additionalInfo_categories", .null),
   ("name", .null), ("price", .null), ("listPrice", .null), ("quantity", .null),
   ("productId", .null), ("seller", .null), ("data_extracao", .str "2024-06-10 15:00:00")]

end VendasDiarias

namespace VendasDiarias

/-! Lemmas about dict assignment and the row normalizer. -/

theorem lookup_setKey_self (row : List (String × JValue)) (k : String) (v : JValue) :
    lookupKey (setKey row k v) k = some v := by
  induction row with
  | nil => simp [setKey, lookupKey]
  | cons kv rest ih =>
      obtain ⟨k2, w⟩ := kv
      by_cases h : k2 = k
      · simp [setKey, h, lookupKey]
      · simp [setKey, h, lookupKey, ih]

theorem lookup_setKey_other (row : List (String × JValue)) (k t : String) (v : JValue)
    (h : t ≠ k) : lookupKey (setKey row k v) t = lookupKey row t := by
  induction row with
  | nil => simp [setKey, lookupKey, Ne.symm h]
  | cons kv rest ih =>
      obtain ⟨k2, w⟩ := kv
      by_cases h2 : k2 = k
      · subst h2
        simp [setKey, lookupKey, Ne.symm h]
      · simp [setKey, h2, lookupKey, ih]

theorem foldl_rowStep_lookup (fields : List (String × JValue))
    (row : List (String × JValue)) (t : String) :
    lookupKey (fields.foldl rowStep row) t =
      match lastTarget fields t with
      | some v => some (normalizeValue v)
      | none => lookupKey row t := by
  induction fields generalizing row with
  | nil => simp [lastTarget]
  | cons kv rest ih =>
      obtain ⟨k, v⟩ := kv
      rw [List.foldl_cons, ih]
      cases hl : lastTarget rest t with
      | some w => simp [lastTarget, hl]
      | none =>
          by_cases ht : mapField k = t
          · simp [lastTarget, hl, ht, rowStep, ht ▸ lookup_setKey_self row (mapField k) (normalizeValue v)]
          · simp [lastTarget, hl, ht, rowStep, lookup_setKey_other row (mapField k) t _ (fun hh => ht hh.symm)]

theorem lastTarget_isSome_of_mem (fields : List (String × JValue)) (k : String) (v : JValue)
    (hm : (k, v) ∈ fields) (ht : mapField k = t) : (lastTarget fields t).isSome := by
  induction fields with
  | nil => simp at hm
  | cons kv rest ih =>
      obtain ⟨k2, w⟩ := kv
      rcases List.mem_cons.mp hm with hh | hh
      · cases hh
        cases hl : lastTarget rest t with
        | some u => simp [lastTarget, hl]
        | none => simp [lastTarget, hl, ht]
      · have := ih hh
        cases hl : lastTarget rest t with
        | some u => simp [lastTarget, hl]
        | none => rw [hl] at this; simp at this

theorem JObj.lookup_mem : ∀ (o : JObj) (key : String) (v : JValue),
    o.lookup key = some v → (key, v) ∈ o.toList
  | .nil, key, v, h => by simp [JObj.lookup] at h
  | .cons k w rest, key, v, h => by
      by_cases hk : k = key
      · subst hk
        simp [JObj.lookup] at h
        simp [JObj.toList, h]
      · simp [JObj.lookup, hk] at h
        simp [JObj.toList, JObj.lookup_mem rest key v h]

theorem normalizeRow_lookup (seller : JObj) (t : String) (v : JValue)
    (h : lastTarget seller.toList t = some v) :
    lookupKey (normalizeRow seller) t = some (normalizeValue v) := by
  have hrow : lookupKey (seller.toList.foldl rowStep []) t = some (normalizeValue v) := by
    rw [foldl_rowStep_lookup, h]
  unfold normalizeRow
  by_cases hc : (lookupKey (seller.toList.foldl rowStep []) "id").isNone ∧
      (seller.lookup "SellerId").isSome
  · have hne : t ≠ "id" := by
      intro he
      rw [he] at hrow
      rw [hrow] at hc
      simp at hc
    rw [if_pos hc, lookup_setKey_other _ _ _ _ hne]
    exact hrow
  · rw [if_neg hc]
    exact hrow

theorem lastTarget_mem (fields : List (String × JValue)) (t : String) (v : JValue)
    (h : lastTarget fields t = some v) : ∃ k, (k, v) ∈ fields ∧ mapField k = t := by
  induction fields with
  | nil => simp [lastTarget] at h
  | cons kv rest ih =>
      obtain ⟨k2, w⟩ := kv
      simp only [lastTarget] at h
      cases hl : lastTarget rest t with
      | some u =>
          rw [hl] at h
          simp only [Option.some.injEq] at h
          subst h
          obtain ⟨k3, hm3, hk3⟩ := ih hl
          exact ⟨k3, List.mem_cons_of_mem _ hm3, hk3⟩
      | none =>
          rw [hl] at h
          by_cases ht : mapField k2 = t
          · rw [if_pos ht] at h
            simp only [Option.some.injEq] at h
            subst h
            exact ⟨k2, List.mem_cons_self _ _, ht⟩
          · rw [if_neg ht] at h
            exact absurd h (by simp)

theorem lastTarget_of_nodup (fields : List (String × JValue)) (k : String) (v : JValue)
    (hnd : (fields.map (fun kv => mapField kv.1)).Nodup)
    (hm : (k, v) ∈ fields) : lastTarget fields (mapField k) = some v := by
  induction fields with
  | nil => simp at hm
  | cons kv rest ih =>
      obtain ⟨k2, w⟩ := kv
      rw [List.map_cons, List.nodup_cons] at hnd
      rcases List.mem_cons.mp hm with hh | hh
      · obtain ⟨h1, h2⟩ : k = k2 ∧ v = w := by simpa using hh
        subst h1
        subst h2
        have hnone : lastTarget rest (mapField k) = none := by
          cases hl : lastTarget rest (mapField k) with
          | none => rfl
          | some u =>
              obtain ⟨k3, hm3, hk3⟩ := lastTarget_mem _ _ _ hl
              exact absurd (List.mem_map.mpr ⟨(k3, u), hm3, hk3⟩) hnd.1
        simp [lastTarget, hnone]
      · have := ih hnd.2 hh
        simp [lastTarget, this]

/-- C5 (amended): whenever a `SellerId` or an `id` field is present in the
entity, the Canonical Row contains the key `id`; its value is the
(normalized) value of the last entity field mapping to `id`, which may be
empty when that field's value is empty. -/
theorem row_id_present (seller : JObj)
    (h : (JObj.lookup seller "SellerId").isSome ∨ (JObj.lookup seller "id").isSome) :
    ∃ v, lastTarget seller.toList "id" = some v ∧
      lookupKey (normalizeRow seller) "id" = some (normalizeValue v) := by
  have hsome : (lastTarget seller.toList "id").isSome := by
    rcases h with h | h
    · obtain ⟨w, hw⟩ := Option.isSome_iff_exists.mp h
      exact lastTarget_isSome_of_mem _ "SellerId" w (JObj.lookup_mem _ _ _ hw) (by decide)
    · obtain ⟨w, hw⟩ := Option.isSome_iff_exists.mp h
      exact lastTarget_isSome_of_mem _ "id" w (JObj.lookup_mem _ _ _ hw) (by decide)
  obtain ⟨v, hv⟩ := Option.isSome_iff_exists.mp hsome
  exact ⟨v, hv, normalizeRow_lookup _ _ _ hv⟩

/-- Witness for C5 at a concrete entity carrying only `SellerId`. -/
theorem row_id_present_witness :
    ((JObj.lookup sS1 "SellerId").isSome ∨ (JObj.lookup sS1 "id").isSome) ∧
    (∃ v, lastTarget sS1.toList "id" = some v ∧
      lookupKey (normalizeRow sS1) "id" = some (normalizeValue v)) :=
  ⟨Or.inl (by decide), row_id_present sS1 (Or.inl (by decide))⟩

/-- C5 counterexample: an entity whose `id` field is present but empty
produces a row whose `id` value is the empty string — present, but not
non-empty as the claim states. -/
theorem row_id_empty_counterexample :
    lookupKey (normalizeRow sEmptyId) "id" = some (.str "") ∧
    pyTruthy (.str "") = false := by decide

/-- C8 (amended): provided no two entity fields map to the same canonical
key, the row value at each field's canonical key is its normalized value:
the compact JSON text for a nested (list/mapping) value, the value itself
otherwise. -/
theorem nested_serialized_row (seller : JObj)
    (hnd : (seller.toList.map (fun kv => mapField kv.1)).Nodup) :
    ∀ k v, (k, v) ∈ seller.toList →
      lookupKey (normalizeRow seller) (mapField k) = some (normalizeValue v) ∧
      (isNested v = true → normalizeValue v = .str (jsonDumps v)) ∧
      (isNested v = false → normalizeValue v = v) := by
  intro k v hm
  refine ⟨normalizeRow_lookup _ _ _ (lastTarget_of_nodup _ _ _ hnd hm), ?_, ?_⟩
  · intro h
    simp [normalizeValue, h]
  · intro h
    simp [normalizeValue, h]

/-- Witness for C8 at a concrete entity with one nested field. -/
theorem nested_serialized_row_witness :
    ((sNested.toList.map (fun kv => mapField kv.1)).Nodup ∧
      ("SellerId", JValue.arr (.cons (.num 1) .nil)) ∈ sNested.toList) ∧
    lookupKey (normalizeRow sNested) (mapField "SellerId") =
      some (normalizeValue (JValue.arr (.cons (.num 1) .nil))) :=
  ⟨⟨by decide, by decide⟩,
    (nested_serialized_row sNested (by decide) "SellerId" (JValue.arr (.cons (.num 1) .nil))
      (by decide)).1⟩

/-- C8 counterexample: when a nested `SellerId` value and a scalar `id`
field collide on the canonical key `id`, the later field wins and no row
field equals the JSON text of the nested structure, contradicting the
claim as stated. -/
theorem nested_overwritten_counterexample :
    normalizeRow sCollide = [("id", .str "x")] ∧
    jsonDumps (.arr (.cons (.num 1) .nil)) = "[1]" ∧
    (JValue.str "[1]") ∉ (normalizeRow sCollide).map Prod.snd := by decide

/-- C4: at "now" = 2024-06-10 15:00 in the fixed UTC-3 offset, the computed
window runs from 2024-06-06 00:00:00 (local midnight 4 days ago) to
2024-06-10 23:59:59 (local end of today). -/
theorem gerar_intervalo_window :
    gerar_intervalo ⟨2024, 6, 10, 15, 0, 0⟩ =
      (⟨2024, 6, 6, 0, 0, 0⟩, ⟨2024, 6, 10, 23, 59, 59⟩) := by decide

/-- C3 counterexample: on the empty input list, export_to_csv writes no
file at all (the early return at lines 124-126 happens before the file is
opened), contradicting the claim that a header-only file is produced. -/
theorem empty_input_no_file_counterexample : export_to_csv [] = none := rfl

/-- C3 (amended): on the empty input, the order-items exporter writes a
header-only CSV, in exactly the declared column order; the sellers
exporter instead writes no file at all. -/
theorem empty_input_header_only :
    pedidos_main_csv [] = some
      ["creationDate,orderId,additionalInfo_categories,name,price,listPrice,quantity,productId,seller,data_extracao"] ∧
    export_to_csv [] = none := by decide

/-- C9: when the single HTTP request of get_seller_details fails — the
request raises, or the status is 4xx/5xx so `raise_for_status` raises —
exactly one attempt is made and the empty dict is returned. -/
theorem get_seller_details_failure (r : HResp) (rs : List HResp)
    (h : r = .exn ∨ ∃ s b, r = .http s b ∧ 400 ≤ s ∧ s < 600) :
    get_seller_details_run (r :: rs) = some (.obj .nil, 1) := by
  rcases h with h | ⟨s, b, h, h4, h6⟩
  · subst h
    rfl
  · subst h
    simp only [get_seller_details_run, get_seller_details]
    rw [if_pos ⟨h4, h6⟩]

/-- Witness for C9 at a concrete 404 response. -/
theorem get_seller_details_failure_witness :
    get_seller_details_run [.http 404 .null] = some (.obj .nil, 1) :=
  get_seller_details_failure (.http 404 .null) []
    (Or.inr ⟨404, .null, rfl, by decide, by decide⟩)

/-! The deduplication invariant of get_all_sellers. -/

theorem acceptSeller_inv (x : JValue) (all seen : List JValue) (cnt : Nat)
    (h : SellersInv all seen) :
    SellersInv (acceptSeller (all, seen, cnt) x).1 (acceptSeller (all, seen, cnt) x).2.1 := by
  cases x with
  | obj o =>
      by_cases hc : pyTruthy (resolveId (.obj o)) = true ∧ resolveId (.obj o) ∉ seen
      · simp only [acceptSeller, if_pos hc]
        constructor
        · rw [List.pairwise_append]
          refine ⟨h.1, List.pairwise_singleton _ _, ?_⟩
          intro a ha b hb
          simp only [List.mem_singleton] at hb
          subst hb
          intro he
          exact hc.2 (he ▸ (h.2 a ha).2)
        · intro e he
          rcases List.mem_append.mp he with he | he
          · exact ⟨(h.2 e he).1, List.mem_append_left _ (h.2 e he).2⟩
          · simp only [List.mem_singleton] at he
            subst he
            exact ⟨hc.1, List.mem_append_right _ (List.mem_singleton_self _)⟩
      · simp only [acceptSeller, if_neg hc]
        exact h
  | null => exact h
  | boolean b => exact h
  | num n => exact h
  | str s => exact h
  | arr l => exact h

theorem foldl_accept_inv (items : List JValue) :
    ∀ (all seen : List JValue) (cnt : Nat), SellersInv all seen →
      SellersInv (items.foldl acceptSeller (all, seen, cnt)).1
        (items.foldl acceptSeller (all, seen, cnt)).2.1 := by
  induction items with
  | nil =>
      intro all seen cnt h
      exact h
  | cons x xs ih =>
      intro all seen cnt h
      rw [List.foldl_cons]
      have h2 := acceptSeller_inv x all seen cnt h
      rcases hx : acceptSeller (all, seen, cnt) x with ⟨all2, seen2, cnt2⟩
      rw [hx] at h2
      exact ih all2 seen2 cnt2 h2

theorem iterSellers_inv (sellers : JValue) (all seen all2 seen2 : List JValue) (n : Nat)
    (h : SellersInv all seen) (he : iterSellers sellers all seen = some (all2, seen2, n)) :
    SellersInv all2 seen2 := by
  unfold iterSellers at he
  by_cases ht : pyTruthy sellers = true
  · rw [if_pos ht] at he
    cases sellers with
    | arr l =>
        simp only [Option.some.injEq] at he
        have hi := foldl_accept_inv l.toList all seen 0 h
        rw [he] at hi
        exact hi
    | null => simp at he
    | boolean b => simp at he
    | num m => simp at he
    | str s => simp at he
    | obj o => simp at he
  · rw [if_neg ht, Option.some.injEq] at he
    simp only [Prod.mk.injEq] at he
    obtain ⟨h1, h2, _⟩ := he
    subst h1
    subst h2
    exact h

theorem stepSellers_inv (s : SellersState) (r : Resp) (hr : objOrErr r = true)
    (h : SellersInv s.all_sellers s.seen_ids) :
    (∀ s2, stepSellers s r = .next s2 → SellersInv s2.all_sellers s2.seen_ids) ∧
    (∀ res, stepSellers s r = .halt res → ResultOk res) := by
  cases r with
  | err =>
      constructor
      · intro s2 hs
        simp [stepSellers] at hs
      · intro res hs
        simp only [stepSellers, StepOut.halt.injEq] at hs
        subst hs
        exact ⟨h.1, fun e he => (h.2 e he).1⟩
  | ok data =>
      cases data with
      | obj f =>
          cases hu : updateTotal s.total_sellers (JObj.getD f "paging" (.obj .nil)) with
          | none =>
              constructor <;> intro _ hs <;> simp [stepSellers, hu] at hs
          | some total2 =>
              cases hi : iterSellers (JObj.getD f "items" (.arr .nil)) s.all_sellers s.seen_ids with
              | none =>
                  constructor <;> intro _ hs <;> simp [stepSellers, hu, hi] at hs
              | some trip =>
                  obtain ⟨all2, seen2, newCnt⟩ := trip
                  have hinv2 := iterSellers_inv _ _ _ _ _ _ h hi
                  cases hsc : stopCheck (total2.getD (.num 0)) all2.length newCnt with
                  | none =>
                      constructor <;> intro _ hs <;> simp [stepSellers, hu, hi, hsc] at hs
                  | some b =>
                      cases b with
                      | true =>
                          constructor
                          · intro s2 hs
                            simp [stepSellers, hu, hi, hsc] at hs
                          · intro res hs
                            simp only [stepSellers, hu, hi, hsc, StepOut.halt.injEq] at hs
                            subst hs
                            exact ⟨hinv2.1, fun e he => (hinv2.2 e he).1⟩
                      | false =>
                          constructor
                          · intro s2 hs
                            simp only [stepSellers, hu, hi, hsc, StepOut.next.injEq] at hs
                            subst hs
                            exact hinv2
                          · intro res hs
                            simp [stepSellers, hu, hi, hsc] at hs
      | null => simp [objOrErr] at hr
      | boolean b => simp [objOrErr] at hr
      | num n => simp [objOrErr] at hr
      | str st2 => simp [objOrErr] at hr
      | arr l => simp [objOrErr] at hr

theorem runSellers_ok : ∀ (resps : List Resp) (s : SellersState),
    SellersInv s.all_sellers s.seen_ids → (∀ r ∈ resps, objOrErr r = true) →
    ∀ res, runSellers s resps = some res → ResultOk res := by
  intro resps
  induction resps with
  | nil =>
      intro s h _ res hr
      simp only [runSellers, Option.some.injEq] at hr
      subst hr
      exact ⟨h.1, fun e he => (h.2 e he).1⟩
  | cons r rs ih =>
      intro s h hall res hrun
      have hr : objOrErr r = true := hall r (List.mem_cons_self _ _)
      have hstep := stepSellers_inv s r hr h
      cases hs : stepSellers s r with
      | crash => simp [runSellers, hs] at hrun
      | halt res2 =>
          simp only [runSellers, hs, Option.some.injEq] at hrun
          subst hrun
          exact hstep.2 res2 hs
      | next s2 =>
          simp only [runSellers, hs] at hrun
          exact ih s2 (hstep.1 s2 hs) (fun r2 hm => hall r2 (List.mem_cons_of_mem _ hm)) res hrun

/-- C1 (amended): for every run of get_all_sellers whose responses are
paginated objects or transport failures, the accumulated result never
contains two entities with the same resolved identifier — duplicates are
dropped, not merged. (A plain-list response instead replaces the
accumulator verbatim and may contain duplicates.) -/
theorem get_all_sellers_nodup_ids (resps : List Resp)
    (hall : ∀ r ∈ resps, objOrErr r = true) (res : List JValue)
    (h : get_all_sellers resps = some res) :
    res.Pairwise (fun a b => resolveId a ≠ resolveId b) :=
  (runSellers_ok resps ⟨[], [], none⟩ ⟨List.Pairwise.nil, by simp⟩ hall res h).1

/-- Witness for C1: one paginated page carrying a duplicate, an
identifier-less entity and two distinct sellers yields a result with
pairwise distinct identifiers. -/
theorem get_all_sellers_nodup_ids_witness :
    (∀ r ∈ [page1], objOrErr r = true) ∧
    List.Pairwise (fun a b => resolveId a ≠ resolveId b) [eDup, eB] :=
  ⟨by decide, get_all_sellers_nodup_ids [page1] (by decide) [eDup, eB] (by decide)⟩

/-- C1 counterexample: a plain-list response containing the same entity
twice is taken verbatim, so the result holds two entities with the same
resolved identifier, contradicting the claim as stated. -/
theorem get_all_sellers_dup_ids_counterexample :
    get_all_sellers [.ok (.arr (.cons eDup (.cons eDup .nil)))] = some [eDup, eDup] ∧
    ¬ List.Pairwise (fun a b => resolveId a ≠ resolveId b) [eDup, eDup] := by
  constructor
  · decide
  · intro hp
    exact (List.pairwise_cons.mp hp).1 eDup (List.mem_singleton_self _) rfl

/-- C6 (amended): for every run of get_all_sellers whose responses are
paginated objects or transport failures, an entity with no truthy resolved
identifier is never in the accumulated result. (A plain-list response is
taken verbatim and may contain such entities.) -/
theorem no_identifier_never_accumulated (resps : List Resp)
    (hall : ∀ r ∈ resps, objOrErr r = true) (res : List JValue)
    (h : get_all_sellers resps = some res) :
    ∀ e ∈ res, pyTruthy (resolveId e) = true :=
  (runSellers_ok resps ⟨[], [], none⟩ ⟨List.Pairwise.nil, by simp⟩ hall res h).2

/-- Witness for C6 on the same paginated page: every accumulated entity
has a truthy identifier (the identifier-less one was dropped). -/
theorem no_identifier_never_accumulated_witness :
    (∀ r ∈ [page1], objOrErr r = true) ∧
    ∀ e ∈ [eDup, eB], pyTruthy (resolveId e) = true :=
  ⟨by decide, no_identifier_never_accumulated [page1] (by decide) [eDup, eB] (by decide)⟩

/-- C6 counterexample: a plain-list response containing an entity with no
recognized identifier is taken verbatim, so that entity ends up in the
accumulated result, contradicting the claim as stated. -/
theorem no_identifier_accumulated_counterexample :
    get_all_sellers [.ok (.arr (.cons eNoId .nil))] = some [eNoId] ∧
    pyTruthy (resolveId eNoId) = false ∧ eNoId ∈ [eNoId] := by decide

/-! The detail-fetch retry loop and the fate of an order whose detail
fetch never succeeds. -/

theorem tentarAttempts_none (f : Nat → HResp) (h : ∀ i b, f i ≠ .http 200 b) :
    ∀ (n i : Nat), tentarAttempts f i n = none := by
  intro n
  induction n with
  | zero => intro i; rfl
  | succ m ih =>
      intro i
      simp only [tentarAttempts]
      split
      · next b heq => exact absurd heq (h i b)
      · exact ih (i + 1)

/-- C2 (amended): in export_sellers, a seller whose detail fetch comes back
empty (as it does after its request fails) keeps the original summary
entity unmodified; in coletar_itens, an order whose detail fetch fails on
all 3 attempts is skipped entirely — it contributes no records, rather
than falling back to the summary. -/
theorem detail_failure_keeps_summary :
    (∀ (details : JValue → JValue) (o : JObj),
        pyTruthy (details (pyOr (o.getD "id" .null) (o.getD "sellerId" .null))) = false →
        detailOne details (.obj o) = some (.obj o)) ∧
    (∀ (att : JValue → Nat → HResp) (agora : DateTime) (o : JObj),
        (∀ i b, att (o.getD "orderId" .null) i ≠ .http 200 b) →
        processResumo att agora (.obj o) = some []) := by
  constructor
  · intro details o hfalsy
    simp only [detailOne]
    by_cases ht : pyTruthy (pyOr (o.getD "id" .null) (o.getD "sellerId" .null)) = true
    · rw [if_pos ht, hfalsy]
      simp
    · rw [if_neg ht]
  · intro att agora o hfail
    have hfd : fetch_detail (att (o.getD "orderId" .null)) = none := by
      unfold fetch_detail
      exact tentarAttempts_none _ hfail 3 0
    simp only [processResumo]
    by_cases ho : pyTruthy (o.getD "orderId" .null) = true
    · simp [ho, hfd]
    · rw [Bool.not_eq_true] at ho
      simp [ho]

/-- Witness for C2: a seller kept verbatim after an empty details record,
and an order skipped after three raised attempts. -/
theorem detail_failure_keeps_summary_witness :
    detailOne (fun _ => .obj .nil) (.obj (.cons "id" (.str "s1") .nil)) =
      some (.obj (.cons "id" (.str "s1") .nil)) ∧
    processResumo (fun _ _ => .exn) agora0 (.obj (.cons "orderId" (.str "X") .nil)) = some [] :=
  ⟨detail_failure_keeps_summary.1 (fun _ => .obj .nil) (.cons "id" (.str "s1") .nil) (by decide),
   detail_failure_keeps_summary.2 (fun _ _ => .exn) agora0 (.cons "orderId" (.str "X") .nil)
     (fun _ _ h => nomatch h)⟩

/-- C2 counterexample: a run of coletar_itens whose only order has all
three detail attempts answer 500 yields no records at all — the summary
entity does not contribute to the output, contradicting the claim as
stated. -/
theorem detail_failure_drops_order_counterexample :
    coletar_itens [pageA, pageB] attFail agora0 = some [] ∧
    fetch_detail (attFail (.str "X")) = none ∧
    pyTruthy (JObj.getD (.cons "orderId" (.str "X") .nil) "orderId" .null) = true := by decide

/-! Every collected record carries exactly the canonical columns. -/

theorem itemsLoop_keys (agora : DateTime) (oid c : JValue) :
    ∀ (l : List JValue) (out : List Registro), itemsLoop agora oid c l = some out →
      ∀ rec ∈ out, rec.map Prod.fst = colunas_finais := by
  intro l
  induction l with
  | nil =>
      intro out h rec hrec
      simp only [itemsLoop, Option.some.injEq] at h
      subst h
      simp at hrec
  | cons x xs ih =>
      intro out h rec hrec
      cases x with
      | obj io =>
          simp only [itemsLoop] at h
          cases ha : addlCategories io with
          | none => rw [ha] at h; exact absurd h (by simp)
          | some cats =>
              rw [ha] at h
              cases hr : itemsLoop agora oid c xs with
              | none => rw [hr] at h; exact absurd h (by simp)
              | some rest =>
                  rw [hr] at h
                  simp only [Option.some.injEq] at h
                  subst h
                  rcases List.mem_cons.mp hrec with hh | hh
                  · subst hh; rfl
                  · exact ih rest hr rec hh
      | null => simp [itemsLoop] at h
      | boolean b => simp [itemsLoop] at h
      | num n => simp [itemsLoop] at h
      | str s => simp [itemsLoop] at h
      | arr l2 => simp [itemsLoop] at h

theorem processItems_keys (agora : DateTime) (oid c items : JValue) (out : List Registro)
    (h : processItems agora oid c items = some out) :
    ∀ rec ∈ out, rec.map Prod.fst = colunas_finais := by
  cases items with
  | arr l => exact itemsLoop_keys agora oid c l.toList out h
  | obj o =>
      cases o with
      | nil =>
          simp only [processItems, Option.some.injEq] at h
          subst h
          simp
      | cons k v rest => simp [processItems] at h
  | str s =>
      simp only [processItems] at h
      by_cases hs : s.isEmpty
      · rw [if_pos hs, Option.some.injEq] at h
        subst h
        simp
      · rw [if_neg hs] at h
        exact absurd h (by simp)
  | null => simp [processItems] at h
  | boolean b => simp [processItems] at h
  | num n => simp [processItems] at h

theorem processResumo_keys (att : JValue → Nat → HResp) (agora : DateTime) (resumo : JValue)
    (out : List Registro) (h : processResumo att agora resumo = some out) :
    ∀ rec ∈ out, rec.map Prod.fst = colunas_finais := by
  cases resumo with
  | obj o =>
      by_cases ho : (!pyTruthy (JObj.getD o "orderId" .null)) = true
      · simp only [processResumo, if_pos ho, Option.some.injEq] at h
        subst h
        simp
      · cases hf : fetch_detail (att (JObj.getD o "orderId" .null)) with
        | none =>
            simp only [processResumo, if_neg ho, hf, Option.some.injEq] at h
            subst h
            simp
        | some pedido =>
            by_cases hp : (!pyTruthy pedido) = true
            · simp only [processResumo, if_neg ho, hf, if_pos hp, Option.some.injEq] at h
              subst h
              simp
            · have ho2 : pyTruthy (JObj.getD o "orderId" .null) = true := by simpa using ho
              cases pedido with
              | obj po =>
                  have hp2 : pyTruthy (JValue.obj po) = true := by simpa using hp
                  cases hc : converter_brasil (JObj.getD po "creationDate" .null) with
                  | none => simp [processResumo, ho2, hf, hp2, hc] at h
                  | some creation =>
                      simp only [processResumo, if_neg ho, hf, if_neg hp, hc] at h
                      exact processItems_keys agora _ creation _ out h
              | null => exact absurd (show pyTruthy JValue.null = true by simpa using hp) (by decide)
              | boolean b =>
                  have hp2 : pyTruthy (JValue.boolean b) = true := by simpa using hp
                  simp [processResumo, ho2, hf, hp2] at h
              | num n =>
                  have hp2 : pyTruthy (JValue.num n) = true := by simpa using hp
                  simp [processResumo, ho2, hf, hp2] at h
              | str s =>
                  have hp2 : pyTruthy (JValue.str s) = true := by simpa using hp
                  simp [processResumo, ho2, hf, hp2] at h
              | arr l =>
                  have hp2 : pyTruthy (JValue.arr l) = true := by simpa using hp
                  simp [processResumo, ho2, hf, hp2] at h
  | null => simp [processResumo] at h
  | boolean b => simp [processResumo] at h
  | num n => simp [processResumo] at h
  | str s => simp [processResumo] at h
  | arr l => simp [processResumo] at h

theorem resumosLoop_keys (att : JValue → Nat → HResp) (agora : DateTime) :
    ∀ (l : List JValue) (out : List Registro), resumosLoop att agora l = some out →
      ∀ rec ∈ out, rec.map Prod.fst = colunas_finais := by
  intro l
  induction l with
  | nil =>
      intro out h rec hrec
      simp only [resumosLoop, Option.some.injEq] at h
      subst h
      simp at hrec
  | cons x xs ih =>
      intro out h rec hrec
      simp only [resumosLoop] at h
      cases hx : processResumo att agora x with
      | none => rw [hx] at h; exact absurd h (by simp)
      | some here =>
          rw [hx] at h
          cases hrest : resumosLoop att agora xs with
          | none => rw [hrest] at h; exact absurd h (by simp)
          | some rest =>
              rw [hrest] at h
              simp only [Option.some.injEq] at h
              subst h
              rcases List.mem_append.mp hrec with hh | hh
              · exact processResumo_keys att agora x here hx rec hh
              · exact ih rest hrest rec hh

theorem runItens_keys (att : JValue → Nat → HResp) (agora : DateTime) :
    ∀ (pages : List HResp) (regs : List Registro),
      (∀ rec ∈ regs, rec.map Prod.fst = colunas_finais) →
      ∀ out, runItens att agora regs pages = some out →
        ∀ rec ∈ out, rec.map Prod.fst = colunas_finais := by
  intro pages
  induction pages with
  | nil =>
      intro regs hregs out h
      simp only [runItens, Option.some.injEq] at h
      subst h
      exact hregs
  | cons r rs ih =>
      intro regs hregs out h
      cases r with
      | exn => simp [runItens, stepItens] at h
      | http status body =>
          by_cases hst : status = 200
          · subst hst
            cases body with
            | obj o =>
                by_cases hp : (!pyTruthy (JObj.getD o "list" (.arr .nil))) = true
                · simp only [runItens, stepItens, if_neg (by simp : ¬(200 ≠ 200)), if_pos hp,
                    Option.some.injEq] at h
                  subst h
                  exact hregs
                · cases hl : JObj.getD o "list" (.arr .nil) with
                  | arr l =>
                      have hp2 : pyTruthy (JValue.arr l) = true := by
                        rw [hl] at hp
                        simpa using hp
                      cases hres : resumosLoop att agora l.toList with
                      | none =>
                          simp [runItens, stepItens, if_neg (by simp : ¬(200 ≠ 200)),
                            hp2, hl, hres] at h
                      | some newRegs =>
                          simp only [runItens, stepItens, if_neg (by simp : ¬(200 ≠ 200)),
                            hl, hp2, Bool.not_true, hres] at h
                          simp only [Bool.false_eq_true, if_false] at h
                          refine ih (regs ++ newRegs) ?_ out h
                          intro rec hrec
                          rcases List.mem_append.mp hrec with hh | hh
                          · exact hregs rec hh
                          · exact resumosLoop_keys att agora l.toList newRegs hres rec hh
                  | null =>
                      exact absurd (show pyTruthy JValue.null = true by
                        rw [hl] at hp; simpa using hp) (by decide)
                  | boolean b =>
                      have hp2 : pyTruthy (JValue.boolean b) = true := by
                        rw [hl] at hp
                        simpa using hp
                      simp [runItens, stepItens, if_neg (by simp : ¬(200 ≠ 200)), hl, hp2] at h
                  | num n =>
                      have hp2 : pyTruthy (JValue.num n) = true := by
                        rw [hl] at hp
                        simpa using hp
                      simp [runItens, stepItens, if_neg (by simp : ¬(200 ≠ 200)), hl, hp2] at h
                  | str s =>
                      have hp2 : pyTruthy (JValue.str s) = true := by
                        rw [hl] at hp
                        simpa using hp
                      simp [runItens, stepItens, if_neg (by simp : ¬(200 ≠ 200)), hl, hp2] at h
                  | obj o2 =>
                      have hp2 : pyTruthy (JValue.obj o2) = true := by
                        rw [hl] at hp
                        simpa using hp
                      simp [runItens, stepItens, if_neg (by simp : ¬(200 ≠ 200)), hl, hp2] at h
            | null => simp [runItens, stepItens] at h
            | boolean b => simp [runItens, stepItens] at h
            | num n => simp [runItens, stepItens] at h
            | str s => simp [runItens, stepItens] at h
            | arr l => simp [runItens, stepItens] at h
          · simp only [runItens, stepItens, if_pos (show status ≠ 200 from hst),
              Option.some.injEq] at h
            subst h
            exact hregs

/-- C10: every record collected by coletar_itens carries exactly the ten
canonical keys, in order, so the column projection in main is total over
the collected records. -/
theorem registros_have_exact_columns (pages : List HResp) (att : JValue → Nat → HResp)
    (agora : DateTime) (regs : List Registro)
    (h : coletar_itens pages att agora = some regs) :
    ∀ rec ∈ regs, rec.map Prod.fst = colunas_finais :=
  runItens_keys att agora pages [] (by simp) regs h

/-- Witness for C10: a concrete run collecting one record. -/
theorem registros_have_exact_columns_witness :
    coletar_itens [pageA, pageB] attOk agora0 = some [regSample] ∧
    ∀ rec ∈ [regSample], rec.map Prod.fst = colunas_finais :=
  ⟨by decide, registros_have_exact_columns [pageA, pageB] attOk agora0 [regSample] (by decide)⟩

/-! The stop/continue discipline of the two paginated loops. -/

theorem pageItemsOf_obj (f : JObj) :
    pageItemsOf (.ok (.obj f)) = itemsListOf (JObj.getD f "items" (.arr .nil)) := by
  cases hv : JObj.getD f "items" (.arr .nil) <;> simp [pageItemsOf, itemsListOf, hv]

theorem updateTotal_none_iff (s : SellersState) (f : JObj) :
    updateTotal s.total_sellers (JObj.getD f "paging" (.obj .nil)) = none ↔
      firstPageMalformed s f = true := by
  unfold updateTotal firstPageMalformed
  cases htot : s.total_sellers with
  | some t => simp
  | none =>
      cases hpag : JObj.getD f "paging" (.obj .nil) with
      | obj p => simp
      | null => simp
      | boolean b => simp
      | num n => simp
      | str s2 => simp
      | arr l => simp

theorem updateTotal_some (s : SellersState) (f : JObj) (total2 : Option JValue)
    (hu : updateTotal s.total_sellers (JObj.getD f "paging" (.obj .nil)) = some total2) :
    firstPageMalformed s f = false ∧
    ∃ t, total2 = some t ∧ declaredTotalOf s (.ok (.obj f)) = some t := by
  unfold updateTotal at hu
  cases htot : s.total_sellers with
  | some t =>
      rw [htot] at hu
      simp only [Option.some.injEq] at hu
      subst hu
      exact ⟨by simp [firstPageMalformed, htot], t, rfl, by simp [declaredTotalOf, htot]⟩
  | none =>
      rw [htot] at hu
      cases hpag : JObj.getD f "paging" (.obj .nil) with
      | obj p =>
          rw [hpag] at hu
          simp only [Option.some.injEq] at hu
          subst hu
          exact ⟨by simp [firstPageMalformed, htot, hpag], _, rfl,
            by simp [declaredTotalOf, htot, hpag]⟩
      | null => rw [hpag] at hu; simp at hu
      | boolean b => rw [hpag] at hu; simp at hu
      | num n => rw [hpag] at hu; simp at hu
      | str s2 => rw [hpag] at hu; simp at hu
      | arr l => rw [hpag] at hu; simp at hu

theorem iterSellers_none_iff (f : JObj) (all seen : List JValue) :
    iterSellers (JObj.getD f "items" (.arr .nil)) all seen = none ↔
      itemsMalformed f = true := by
  unfold iterSellers itemsMalformed
  cases hv : JObj.getD f "items" (.arr .nil) with
  | arr l => by_cases ht : pyTruthy (JValue.arr l) = true <;> simp [isArr, ht]
  | null => by_cases ht : pyTruthy JValue.null = true <;> simp [isArr, ht]
  | boolean b => by_cases ht : pyTruthy (JValue.boolean b) = true <;> simp [isArr, ht]
  | num n => by_cases ht : pyTruthy (JValue.num n) = true <;> simp [isArr, ht]
  | str s2 => by_cases ht : pyTruthy (JValue.str s2) = true <;> simp [isArr, ht]
  | obj o => by_cases ht : pyTruthy (JValue.obj o) = true <;> simp [isArr, ht]

theorem iterSellers_eq_fold (v : JValue) (all seen : List JValue)
    (trip : List JValue × List JValue × Nat)
    (hi : iterSellers v all seen = some trip) :
    trip = (itemsListOf v).foldl acceptSeller (all, seen, 0) := by
  unfold iterSellers at hi
  by_cases ht : pyTruthy v = true
  · rw [if_pos ht] at hi
    cases v with
    | arr l =>
        simp only [Option.some.injEq] at hi
        exact hi.symm
    | null => simp at hi
    | boolean b => simp at hi
    | num n => simp at hi
    | str s2 => simp at hi
    | obj o => simp at hi
  · rw [if_neg ht] at hi
    simp only [Option.some.injEq] at hi
    subst hi
    cases v with
    | arr l =>
        cases l with
        | nil => rfl
        | cons x xs => exact absurd rfl ht
    | null => rfl
    | boolean b =>
        cases b with
        | false => rfl
        | true => exact absurd rfl ht
    | num n => rfl
    | str s2 => rfl
    | obj o => rfl

theorem stopCheck_none_iff (t : JValue) (cnt ncnt : Nat) :
    stopCheck t cnt ncnt = none ↔ (pyTruthy t && !isNum t) = true := by
  unfold stopCheck
  by_cases ht : pyTruthy t = true
  · rw [if_pos ht]
    cases t <;> simp [isNum, ht]
  · rw [if_neg ht]
    have ht2 : pyTruthy t = false := by simpa using ht
    simp [ht2]

theorem stopCheck_some (t : JValue) (cnt ncnt : Nat) (b : Bool)
    (h : stopCheck t cnt ncnt = some b) :
    b = (decide (ncnt = 0) || (pyTruthy t && totalCompare t cnt)) := by
  unfold stopCheck at h
  by_cases ht : pyTruthy t = true
  · rw [if_pos ht] at h
    cases t with
    | num n =>
        simp only [Option.some.injEq] at h
        subst h
        simp [totalCompare, ht, Bool.or_comm]
    | null => simp at h
    | boolean b2 => simp at h
    | str s2 => simp at h
    | arr l => simp at h
    | obj o => simp at h
  · rw [if_neg ht] at h
    simp only [Option.some.injEq] at h
    subst h
    have ht2 : pyTruthy t = false := by simpa using ht
    simp [ht2]

/-- C7 (amended): each paginated loop issues another page request exactly
when none of its stopping conditions holds. get_all_sellers stops exactly
on: a transport failure; a non-paginated (plain list or scalar) payload,
taken as the final result; a malformed page that raises; a page with zero
new (non-duplicate) items — which covers a page with zero items; or a
truthy (nonzero) declared total already collected. coletar_itens stops
exactly on: a raised page request (uncaught); a non-200 status; a falsy
`list` field; or a malformed page or order record that raises. -/
theorem stops_exactly_iff :
    (∀ (s : SellersState) (r : Resp),
        (stepSellers s r).isNext = !amendedStopSellers s r) ∧
    (∀ (att : JValue → Nat → HResp) (agora : DateTime) (regs : List Registro) (r : HResp),
        (stepItens att agora regs r).isNext = !amendedStopItens att agora r) := by
  constructor
  · intro s r
    cases r with
    | err => rfl
    | ok data =>
        cases data with
        | obj f =>
            cases hu : updateTotal s.total_sellers (JObj.getD f "paging" (.obj .nil)) with
            | none =>
                have h1 : firstPageMalformed s f = true := (updateTotal_none_iff s f).mp hu
                simp [stepSellers, amendedStopSellers, hu, h1, StepOut.isNext]
            | some total2 =>
                obtain ⟨h1, t, ht2, hdt⟩ := updateTotal_some s f total2 hu
                subst ht2
                cases hi : iterSellers (JObj.getD f "items" (.arr .nil))
                    s.all_sellers s.seen_ids with
                | none =>
                    have h3 : itemsMalformed f = true :=
                      (iterSellers_none_iff f s.all_sellers s.seen_ids).mp hi
                    simp [stepSellers, amendedStopSellers, hu, hi, h3, StepOut.isNext]
                | some trip =>
                    obtain ⟨all2, seen2, ncnt⟩ := trip
                    have h3 : itemsMalformed f = false := by
                      cases hbm : itemsMalformed f with
                      | false => rfl
                      | true =>
                          have hnone :=
                            (iterSellers_none_iff f s.all_sellers s.seen_ids).mpr hbm
                          rw [hnone] at hi
                          simp at hi
                    have hfold := iterSellers_eq_fold _ _ _ _ hi
                    have hn : newCountOf s (.ok (.obj f)) = ncnt := by
                      unfold newCountOf
                      rw [pageItemsOf_obj, ← hfold]
                    have ha : accAfterOf s (.ok (.obj f)) = all2.length := by
                      unfold accAfterOf
                      rw [pageItemsOf_obj, ← hfold]
                    have hts : totalStop s (.ok (.obj f)) =
                        (pyTruthy t && totalCompare t all2.length) := by
                      simp [totalStop, hdt, ha]
                    cases hsc : stopCheck t all2.length ncnt with
                    | none =>
                        have hmal := (stopCheck_none_iff t all2.length ncnt).mp hsc
                        rw [Bool.and_eq_true] at hmal
                        have hpt : pyTruthy t = true := hmal.1
                        have hnn : isNum t = false := by simpa using hmal.2
                        have hcmp : totalCompare t all2.length = true := by
                          cases t <;> first | rfl | simp [isNum] at hnn
                        have hts2 : totalStop s (.ok (.obj f)) = true := by
                          rw [hts, hpt, hcmp]
                          rfl
                        simp [stepSellers, amendedStopSellers, hu, hi, hsc, hts2,
                          StepOut.isNext]
                    | some b =>
                        have hb := stopCheck_some t all2.length ncnt b hsc
                        cases b with
                        | true =>
                            simp [stepSellers, amendedStopSellers, hu, hi, hsc,
                              StepOut.isNext, h1, h3, hn, hts, ← hb]
                        | false =>
                            simp [stepSellers, amendedStopSellers, hu, hi, hsc,
                              StepOut.isNext, h1, h3, hn, hts, ← hb]
        | null => rfl
        | boolean b => rfl
        | num n => rfl
        | str s2 => rfl
        | arr l => rfl
  · intro att agora regs r
    cases r with
    | exn => rfl
    | http status body =>
        by_cases hst : status = 200
        · subst hst
          cases body with
          | obj o =>
              by_cases hp : (!pyTruthy (JObj.getD o "list" (.arr .nil))) = true
              · simp [stepItens, amendedStopItens, hp, if_neg (by simp : ¬(200 ≠ 200)),
                  StepOut.isNext]
              · have hp2 : pyTruthy (JObj.getD o "list" (.arr .nil)) = true := by
                  simpa using hp
                cases hl : JObj.getD o "list" (.arr .nil) with
                | arr l =>
                    cases hres : resumosLoop att agora l.toList with
                    | none =>
                        simp [stepItens, amendedStopItens, hl, hp2.symm ▸ hp2, hres,
                          if_neg (by simp : ¬(200 ≠ 200)), StepOut.isNext,
                          show pyTruthy (JValue.arr l) = true from hl ▸ hp2]
                    | some newRegs =>
                        simp [stepItens, amendedStopItens, hl, hres,
                          if_neg (by simp : ¬(200 ≠ 200)), StepOut.isNext,
                          show pyTruthy (JValue.arr l) = true from hl ▸ hp2]
                | null => exact absurd (hl ▸ hp2) (by decide)
                | boolean b =>
                    simp [stepItens, amendedStopItens, hl,
                      if_neg (by simp : ¬(200 ≠ 200)), StepOut.isNext,
                      show pyTruthy (JValue.boolean b) = true from hl ▸ hp2]
                | num n =>
                    simp [stepItens, amendedStopItens, hl,
                      if_neg (by simp : ¬(200 ≠ 200)), StepOut.isNext,
                      show pyTruthy (JValue.num n) = true from hl ▸ hp2]
                | str s2 =>
                    simp [stepItens, amendedStopItens, hl,
                      if_neg (by simp : ¬(200 ≠ 200)), StepOut.isNext,
                      show pyTruthy (JValue.str s2) = true from hl ▸ hp2]
                | obj o2 =>
                    simp [stepItens, amendedStopItens, hl,
                      if_neg (by simp : ¬(200 ≠ 200)), StepOut.isNext,
                      show pyTruthy (JValue.obj o2) = true from hl ▸ hp2]
          | null => simp [stepItens, amendedStopItens, StepOut.isNext]
          | boolean b => simp [stepItens, amendedStopItens, StepOut.isNext]
          | num n => simp [stepItens, amendedStopItens, StepOut.isNext]
          | str s2 => simp [stepItens, amendedStopItens, StepOut.isNext]
          | arr l => simp [stepItens, amendedStopItens, StepOut.isNext]
        · simp [stepItens, amendedStopItens, hst, StepOut.isNext]

/-- C7 counterexample: a plain-list response with one fresh, identified
entity makes get_all_sellers stop (the payload is taken as the final
result), yet none of the specification's enumerated stopping conditions —
transport failure, zero items, zero new items, total reached — holds
there. -/
theorem stops_without_claimed_condition_counterexample :
    (stepSellers ⟨[], [], none⟩ (.ok (.arr (.cons eDup .nil)))).isNext = false ∧
    claimedStopSellers ⟨[], [], none⟩ (.ok (.arr (.cons eDup .nil))) = false := by decide

end VendasDiarias
